import Mathlib

/-!
# Verification of the ml-agents PPO loss construction and the reward-signal factory

Shallow embedding of two source files:

* `mlagents/trainers/ppo/models.py` (`PPOModel.__init__`, `PPOModel.create_losses`):
  the TensorFlow graph built by `create_losses` denotes, for each batch of fed
  placeholder values, a rational-valued computation.  Tensors of shape `[None]`
  are embedded as `List ℚ` (one entry per timestep), value-stream outputs of
  shape `[None, k]` as `List (List ℚ)` (one row per timestep; the source reduces
  each row with `tf.reduce_sum(..., axis=1)`).  The backend primitives
  `tf.clip_by_value`, `tf.squared_difference`, `tf.reduce_mean`,
  `tf.dynamic_partition`, `tf.train.polynomial_decay` are embedded by the
  rational functions below; `tf.exp` is a transcendental backend primitive with
  no exact rational meaning, so it is passed as an opaque parameter `texp`
  everywhere (both the embedded code and the specification formulas apply the
  same `texp`).  `self.mask` comes from the `LearningModel` base class (not part
  of this repository snapshot); per the spec it is a 0/1 per-timestep validity
  indicator, embedded as a `List ℕ` input.

* `mlagents/trainers/components/reward_signals/reward_signal_factory.py`
  (`create_reward_signal`): the registry and control flow are embedded exactly;
  the three signal classes live outside this snapshot, so their `check_config`
  and constructors are opaque parameters returning `Except`, with a Python
  `TypeError` from the constructor modelled by a dedicated error constructor.
-/

/-- Model of `tf.clip_by_value t lo hi`: TensorFlow computes
`max (min t hi) lo` (first the upper bound, then the lower bound). -/
def tfClipByValue (x lo hi : ℚ) : ℚ := max (min x hi) lo

/-- Model of `tf.squared_difference x y = (x - y)^2`. -/
def tfSquaredDifference (x y : ℚ) : ℚ := (x - y) ^ 2

/-- Model of `tf.reduce_mean` over a vector: sum divided by length. -/
def tfReduceMean (l : List ℚ) : ℚ := l.sum / (l.length : ℚ)

/-- Model of `tf.dynamic_partition(data, mask, 2)[1]`: the subsequence of
`data` at positions whose mask entry is `1`. -/
def tfDynamicPartitionOne (data : List ℚ) (mask : List ℕ) : List ℚ :=
  ((data.zip mask).filter (fun p => p.2 == 1)).map Prod.fst

/-- Model of `tf.train.polynomial_decay(initial, step, maxStep, endValue, power=1.0)`
(no cycling): the step is clamped to `maxStep` and the value is interpolated
linearly from `initial` at step 0 to `endValue` at step `maxStep`. -/
def polynomialDecay (initial endValue : ℚ) (maxStep step : ℕ) : ℚ :=
  (initial - endValue) * (1 - ((min step maxStep : ℕ) : ℚ) / (maxStep : ℚ)) + endValue

/-- `self.learning_rate = tf.train.polynomial_decay(lr, global_step, max_step, 1e-10, power=1.0)`. -/
def learningRate (lr : ℚ) (maxStep step : ℕ) : ℚ :=
  polynomialDecay lr 1e-10 maxStep step

/-- `decay_epsilon = tf.train.polynomial_decay(epsilon, global_step, max_step, 0.1, power=1.0)`. -/
def decayEpsilon (epsilon : ℚ) (maxStep step : ℕ) : ℚ :=
  polynomialDecay epsilon 0.1 maxStep step

/-- `decay_beta = tf.train.polynomial_decay(beta, global_step, max_step, 1e-5, power=1.0)`. -/
def decayBeta (beta : ℚ) (maxStep step : ℕ) : ℚ :=
  polynomialDecay beta 1e-5 maxStep step

/-- Names of the `returns` placeholders: the source loop
`for i in range(len(value_streams))` creates a placeholder named
`'{}_returns'.format(stream_names[i])` at each index. -/
def returnsHolderNames (streamNames : List String) (numStreams : ℕ) : List String :=
  (List.range numStreams).map (fun i => streamNames.getD i "" ++ "_returns")

/-- Names of the `old_value` placeholders, `'{}_value_estimate'.format(stream_names[i])`. -/
def oldValueNames (streamNames : List String) (numStreams : ℕ) : List String :=
  (List.range numStreams).map (fun i => streamNames.getD i "" ++ "_value_estimate")

/-- `tf.reduce_sum(value_streams[name], axis=1)`: each timestep row of a value
stream is summed into the scalar value estimate for that timestep. -/
def valueHeadOut (rows : List (List ℚ)) : List ℚ := rows.map List.sum

/-- One entry of `clipped_value_estimate`:
`old_value + tf.clip_by_value(value - old_value, -decay_epsilon, decay_epsilon)`. -/
def clippedValue (vOld v eps : ℚ) : ℚ := vOld + tfClipByValue (v - vOld) (-eps) eps

/-- Per-stream value loss from the source loop body:
`v_opt_a = squared_difference(returns, reduce_sum(stream, axis=1))`,
`v_opt_b = squared_difference(returns, clipped_value_estimate)`,
`value_loss = reduce_mean(dynamic_partition(maximum(v_opt_a, v_opt_b), mask, 2)[1])`. -/
def streamValueLoss (returnsH oldValue : List ℚ) (rows : List (List ℚ)) (eps : ℚ)
    (mask : List ℕ) : ℚ :=
  tfReduceMean (tfDynamicPartitionOne
    (List.zipWith max
      (List.zipWith tfSquaredDifference returnsH (valueHeadOut rows))
      (List.zipWith tfSquaredDifference returnsH
        (List.zipWith (fun ov v => clippedValue ov v eps) oldValue (valueHeadOut rows))))
    mask)

/-- The list `value_losses`, one per-stream loss per `enumerate(stream_names)`
iteration; the `i`-th iteration reads `self.returns_holders[i]`,
`self.old_values[i]` and `value_streams[stream_names[i]]`. -/
def valueLossTerms (streamNames : List String) (valueStreams : String → List (List ℚ))
    (returnsHolders oldValues : List (List ℚ)) (eps : ℚ) (mask : List ℕ) : List ℚ :=
  (List.range streamNames.length).map (fun i =>
    streamValueLoss (returnsHolders.getD i []) (oldValues.getD i [])
      (valueStreams (streamNames.getD i "")) eps mask)

/-- `self.value_loss = tf.reduce_mean(value_losses)`. -/
def valueLoss (streamNames : List String) (valueStreams : String → List (List ℚ))
    (returnsHolders oldValues : List (List ℚ)) (eps : ℚ) (mask : List ℕ) : ℚ :=
  tfReduceMean (valueLossTerms streamNames valueStreams returnsHolders oldValues eps mask)

/-- `r_theta = tf.exp(probs - old_probs)` with the backend exponential `texp`. -/
def rTheta (texp : ℚ → ℚ) (probs oldProbs : List ℚ) : List ℚ :=
  List.zipWith (fun p q => texp (p - q)) probs oldProbs

/-- `p_opt_a = r_theta * self.advantage`. -/
def pOptA (texp : ℚ → ℚ) (probs oldProbs advantage : List ℚ) : List ℚ :=
  List.zipWith (fun r a => r * a) (rTheta texp probs oldProbs) advantage

/-- `p_opt_b = tf.clip_by_value(r_theta, 1 - decay_epsilon, 1 + decay_epsilon) * self.advantage`. -/
def pOptB (texp : ℚ → ℚ) (probs oldProbs advantage : List ℚ) (eps : ℚ) : List ℚ :=
  List.zipWith (fun r a => tfClipByValue r (1 - eps) (1 + eps) * a)
    (rTheta texp probs oldProbs) advantage

/-- `self.policy_loss = -reduce_mean(dynamic_partition(minimum(p_opt_a, p_opt_b), mask, 2)[1])`. -/
def policyLoss (texp : ℚ → ℚ) (probs oldProbs advantage : List ℚ) (eps : ℚ)
    (mask : List ℕ) : ℚ :=
  -tfReduceMean (tfDynamicPartitionOne
    (List.zipWith min (pOptA texp probs oldProbs advantage)
      (pOptB texp probs oldProbs advantage eps))
    mask)

/-- `self.loss = self.policy_loss + 0.5 * self.value_loss
- decay_beta * reduce_mean(dynamic_partition(entropy, mask, 2)[1])`,
with `decay_epsilon` and `decay_beta` the decayed schedules at the current
global step. -/
def totalLoss (texp : ℚ → ℚ) (probs oldProbs : List ℚ)
    (valueStreams : String → List (List ℚ)) (entropy : List ℚ)
    (beta epsilon : ℚ) (maxStep step : ℕ) (streamNames : List String)
    (returnsHolders oldValues : List (List ℚ)) (advantage : List ℚ)
    (mask : List ℕ) : ℚ :=
  policyLoss texp probs oldProbs advantage (decayEpsilon epsilon maxStep step) mask
    + 0.5 * valueLoss streamNames valueStreams returnsHolders oldValues
        (decayEpsilon epsilon maxStep step) mask
    - decayBeta beta maxStep step * tfReduceMean (tfDynamicPartitionOne entropy mask)

/-- `PPOModel.__init__`: `if stream_names is None: stream_names = []`. -/
def resolveStreamNames (streamNames : Option (List String)) : List String :=
  streamNames.getD []

/-- Modelled from the spec: the `LearningModel` base class (not in this source
snapshot) builds the `value_heads` dict with one value head per entry of
`stream_names` ("every name in stream_names has exactly one corresponding value
head"), so the number of value streams equals the length of `stream_names`. -/
def numValueHeads (streamNames : List String) : ℕ := streamNames.length

/-- The three classes registered in `NAME_TO_CLASS`. -/
inductive RewardSignalClass where
  | extrinsicSignal
  | gailSignal
  | curiositySignal
deriving DecidableEq

/-- The registry `NAME_TO_CLASS` of `reward_signal_factory.py`. -/
def NAME_TO_CLASS : List (String × RewardSignalClass) :=
  [("extrinsic", .extrinsicSignal),
   ("gail", .gailSignal),
   ("curiosity", .curiositySignal)]

/-- Outcome of calling a reward-signal class constructor
`rcls(policy, **config_entry)`: success, a Python `TypeError` (the only
exception the factory catches), or any other raised exception. -/
inductive ConstructorFailure (Exc : Type) where
  | typeMismatch (msg : String)
  | raised (e : Exc)

/-- Outcome of `create_reward_signal`: a `UnityTrainerException` with its
message, an uncaught failure propagating out of `check_config`, or an uncaught
non-`TypeError` exception propagating out of the constructor. -/
inductive FactoryError (CfgErr Exc : Type) where
  | unityTrainerException (msg : String)
  | configFailure (e : CfgErr)
  | raised (e : Exc)

/-- `create_reward_signal(policy, name, config_entry)`:
`rcls = NAME_TO_CLASS.get(name)`; if absent raise
`UnityTrainerException("Unknown reward signal type {0}".format(name))`;
then `rcls.check_config(config_entry)` (failures propagate uncaught); then
`rcls(policy, **config_entry)`, catching exactly `TypeError` and re-raising it
as `UnityTrainerException("Unknown parameters given for reward signal {0}".format(name))`.
The signal classes are outside this snapshot, so `check_config` and the
constructors are opaque parameters. -/
def create_reward_signal {Policy Config Inst CfgErr Exc : Type}
    (check_config : RewardSignalClass → Config → Except CfgErr Unit)
    (construct : RewardSignalClass → Policy → Config → Except (ConstructorFailure Exc) Inst)
    (policy : Policy) (name : String) (config_entry : Config) :
    Except (FactoryError CfgErr Exc) Inst :=
  match NAME_TO_CLASS.lookup name with
  | none => .error (.unityTrainerException ("Unknown reward signal type " ++ name))
  | some rcls =>
    match check_config rcls config_entry with
    | .error e => .error (.configFailure e)
    | .ok _ =>
      match construct rcls policy config_entry with
      | .error (.typeMismatch _) =>
          .error (.unityTrainerException ("Unknown parameters given for reward signal " ++ name))
      | .error (.raised e) => .error (.raised e)
      | .ok inst => .ok inst

/-- Specification-side clip (clamp into `[lo, hi]`, stated with the bounds in
the opposite composition order from the backend primitive). -/
def specClip (x lo hi : ℚ) : ℚ := min (max x lo) hi

/-- Specification-side masked mean over timesteps `i < n` with `mask i = 1`:
the sum of the selected values divided by the number of selected timesteps. -/
def maskedMeanFn (n : ℕ) (maskFn : ℕ → ℕ) (f : ℕ → ℚ) : ℚ :=
  (∑ i ∈ Finset.range n, if maskFn i = 1 then f i else 0)
    / ((((Finset.range n).filter (fun i => maskFn i = 1)).card : ℕ) : ℚ)

/-! ## Bridging lemmas between the list-level embedding and index-level formulas -/

lemma dynPart1_nil (mask : List ℕ) : tfDynamicPartitionOne [] mask = [] := by
  simp [tfDynamicPartitionOne]

lemma dynPart1_cons (x : ℚ) (xs : List ℚ) (m : ℕ) (ms : List ℕ) :
    tfDynamicPartitionOne (x :: xs) (m :: ms) =
      if m = 1 then x :: tfDynamicPartitionOne xs ms else tfDynamicPartitionOne xs ms := by
  by_cases h : m = 1 <;>
    simp [tfDynamicPartitionOne, List.zip_cons_cons, List.filter_cons, h]

lemma dynPart1_sum (xs : List ℚ) (mask : List ℕ) (h : xs.length = mask.length) :
    (tfDynamicPartitionOne xs mask).sum =
      ∑ i ∈ Finset.range xs.length, if mask.getD i 0 = 1 then xs.getD i 0 else 0 := by
  induction xs generalizing mask with
  | nil => simp [dynPart1_nil]
  | cons x xs ih =>
    cases mask with
    | nil => simp at h
    | cons m ms =>
      have h2 : xs.length = ms.length := by simpa using h
      rw [dynPart1_cons, List.length_cons, Finset.sum_range_succ']
      simp only [List.getD_cons_succ, List.getD_cons_zero]
      by_cases hm : m = 1
      · simp [hm, ih ms h2, add_comm]
      · simp [hm, ih ms h2]

lemma dynPart1_length (xs : List ℚ) (mask : List ℕ) (h : xs.length = mask.length) :
    (tfDynamicPartitionOne xs mask).length =
      ∑ i ∈ Finset.range xs.length, if mask.getD i 0 = 1 then 1 else 0 := by
  induction xs generalizing mask with
  | nil => simp [dynPart1_nil]
  | cons x xs ih =>
    cases mask with
    | nil => simp at h
    | cons m ms =>
      have h2 : xs.length = ms.length := by simpa using h
      rw [dynPart1_cons, List.length_cons, Finset.sum_range_succ']
      simp only [List.getD_cons_succ, List.getD_cons_zero]
      by_cases hm : m = 1
      · simp [hm, ih ms h2, add_comm]
      · simp [hm, ih ms h2]

lemma maskedMean_dynPart (xs : List ℚ) (mask : List ℕ) (h : xs.length = mask.length) :
    tfReduceMean (tfDynamicPartitionOne xs mask) =
      maskedMeanFn xs.length (fun i => mask.getD i 0) (fun i => xs.getD i 0) := by
  unfold tfReduceMean maskedMeanFn
  rw [dynPart1_sum xs mask h, dynPart1_length xs mask h, Finset.card_filter]

lemma maskedMeanFn_congr (n : ℕ) (maskFn : ℕ → ℕ) (f g : ℕ → ℚ)
    (h : ∀ i, i < n → maskFn i = 1 → f i = g i) :
    maskedMeanFn n maskFn f = maskedMeanFn n maskFn g := by
  unfold maskedMeanFn
  congr 1
  refine Finset.sum_congr rfl (fun i hi => ?_)
  by_cases hm : maskFn i = 1
  · rw [if_pos hm, if_pos hm, h i (Finset.mem_range.mp hi) hm]
  · rw [if_neg hm, if_neg hm]

lemma getD_zipWith (f : ℚ → ℚ → ℚ) (as bs : List ℚ) (i : ℕ)
    (ha : i < as.length) (hb : i < bs.length) :
    (List.zipWith f as bs).getD i 0 = f (as.getD i 0) (bs.getD i 0) := by
  have hz : i < (List.zipWith f as bs).length := by
    rw [List.length_zipWith]; omega
  rw [List.getD_eq_getElem _ _ hz, List.getD_eq_getElem _ _ ha,
    List.getD_eq_getElem _ _ hb, List.getElem_zipWith]

lemma getD_map_sum (rows : List (List ℚ)) (i : ℕ) (hi : i < rows.length) :
    (rows.map List.sum).getD i 0 = (rows.getD i []).sum := by
  have hm : i < (rows.map List.sum).length := by
    rw [List.length_map]; omega
  rw [List.getD_eq_getElem _ _ hm, List.getD_eq_getElem _ _ hi, List.getElem_map]

lemma getD_range_map {α : Type} (f : ℕ → α) (d : α) (k i : ℕ) (hi : i < k) :
    ((List.range k).map f).getD i d = f i := by
  have hm : i < ((List.range k).map f).length := by
    rw [List.length_map, List.length_range]; omega
  rw [List.getD_eq_getElem _ _ hm, List.getElem_map, List.getElem_range]

lemma sum_map_range (f : ℕ → ℚ) (k : ℕ) :
    ((List.range k).map f).sum = ∑ j ∈ Finset.range k, f j := by
  induction k with
  | zero => simp
  | succ k ih =>
    rw [List.range_succ, List.map_append, List.sum_append, Finset.sum_range_succ, ih]
    simp

lemma tfClip_eq_specClip (x lo hi : ℚ) (h : lo ≤ hi) :
    tfClipByValue x lo hi = specClip x lo hi := by
  unfold tfClipByValue specClip
  rcases le_total x lo with h1 | h1 <;> rcases le_total x hi with h2 | h2 <;>
    simp [max_def, min_def] <;> split_ifs <;> linarith

lemma maskedMean_dynPartN (xs : List ℚ) (mask : List ℕ) (n : ℕ)
    (hx : xs.length = n) (hm : mask.length = n) :
    tfReduceMean (tfDynamicPartitionOne xs mask) =
      maskedMeanFn n (fun i => mask.getD i 0) (fun i => xs.getD i 0) := by
  rw [maskedMean_dynPart xs mask (by rw [hx, hm]), hx]

lemma policyLoss_indexed (texp : ℚ → ℚ) (probs oldProbs advantage : List ℚ) (eps : ℚ)
    (mask : List ℕ) (n : ℕ) (hp : probs.length = n) (ho : oldProbs.length = n)
    (ha : advantage.length = n) (hm : mask.length = n) :
    policyLoss texp probs oldProbs advantage eps mask =
      -maskedMeanFn n (fun i => mask.getD i 0) (fun i =>
        min (texp (probs.getD i 0 - oldProbs.getD i 0) * advantage.getD i 0)
          (tfClipByValue (texp (probs.getD i 0 - oldProbs.getD i 0)) (1 - eps) (1 + eps)
            * advantage.getD i 0)) := by
  have hr : (rTheta texp probs oldProbs).length = n := by
    rw [rTheta, List.length_zipWith, hp, ho, min_self]
  have hA : (pOptA texp probs oldProbs advantage).length = n := by
    rw [pOptA, List.length_zipWith, hr, ha, min_self]
  have hB : (pOptB texp probs oldProbs advantage eps).length = n := by
    rw [pOptB, List.length_zipWith, hr, ha, min_self]
  have hbig : (List.zipWith min (pOptA texp probs oldProbs advantage)
      (pOptB texp probs oldProbs advantage eps)).length = n := by
    rw [List.length_zipWith, hA, hB, min_self]
  unfold policyLoss
  rw [maskedMean_dynPartN _ mask n hbig hm]
  refine congrArg (fun z => -z) (maskedMeanFn_congr n _ _ _ (fun i hi _ => ?_))
  rw [getD_zipWith min (pOptA texp probs oldProbs advantage)
    (pOptB texp probs oldProbs advantage eps) i (by omega) (by omega)]
  have e1 : (pOptA texp probs oldProbs advantage).getD i 0 =
      texp (probs.getD i 0 - oldProbs.getD i 0) * advantage.getD i 0 := by
    unfold pOptA
    rw [getD_zipWith (fun r a => r * a) (rTheta texp probs oldProbs) advantage i
      (by omega) (by omega)]
    unfold rTheta
    rw [getD_zipWith (fun p q => texp (p - q)) probs oldProbs i (by omega) (by omega)]
  have e2 : (pOptB texp probs oldProbs advantage eps).getD i 0 =
      tfClipByValue (texp (probs.getD i 0 - oldProbs.getD i 0)) (1 - eps) (1 + eps)
        * advantage.getD i 0 := by
    unfold pOptB
    rw [getD_zipWith (fun r a => tfClipByValue r (1 - eps) (1 + eps) * a)
      (rTheta texp probs oldProbs) advantage i (by omega) (by omega)]
    unfold rTheta
    rw [getD_zipWith (fun p q => texp (p - q)) probs oldProbs i (by omega) (by omega)]
  rw [e1, e2]

lemma streamValueLoss_indexed (returnsH oldValue : List ℚ) (rows : List (List ℚ))
    (eps : ℚ) (mask : List ℕ) (n : ℕ) (hR : returnsH.length = n)
    (hO : oldValue.length = n) (hrows : rows.length = n) (hm : mask.length = n) :
    streamValueLoss returnsH oldValue rows eps mask =
      maskedMeanFn n (fun i => mask.getD i 0) (fun i =>
        max ((returnsH.getD i 0 - (rows.getD i []).sum) ^ 2)
          ((returnsH.getD i 0 -
            clippedValue (oldValue.getD i 0) ((rows.getD i []).sum) eps) ^ 2)) := by
  have hV : (valueHeadOut rows).length = n := by
    rw [valueHeadOut, List.length_map, hrows]
  have hC : (List.zipWith (fun ov v => clippedValue ov v eps) oldValue
      (valueHeadOut rows)).length = n := by
    rw [List.length_zipWith, hO, hV, min_self]
  have hA : (List.zipWith tfSquaredDifference returnsH (valueHeadOut rows)).length = n := by
    rw [List.length_zipWith, hR, hV, min_self]
  have hB : (List.zipWith tfSquaredDifference returnsH
      (List.zipWith (fun ov v => clippedValue ov v eps) oldValue
        (valueHeadOut rows))).length = n := by
    rw [List.length_zipWith, hR, hC, min_self]
  have hbig : (List.zipWith max
      (List.zipWith tfSquaredDifference returnsH (valueHeadOut rows))
      (List.zipWith tfSquaredDifference returnsH
        (List.zipWith (fun ov v => clippedValue ov v eps) oldValue
          (valueHeadOut rows)))).length = n := by
    rw [List.length_zipWith, hA, hB, min_self]
  unfold streamValueLoss
  rw [maskedMean_dynPartN _ mask n hbig hm]
  refine maskedMeanFn_congr n _ _ _ (fun i hi _ => ?_)
  rw [getD_zipWith max (List.zipWith tfSquaredDifference returnsH (valueHeadOut rows))
    (List.zipWith tfSquaredDifference returnsH
      (List.zipWith (fun ov v => clippedValue ov v eps) oldValue (valueHeadOut rows)))
    i (by omega) (by omega)]
  have eV : (valueHeadOut rows).getD i 0 = (rows.getD i []).sum := by
    unfold valueHeadOut
    exact getD_map_sum rows i (by omega)
  have eA : (List.zipWith tfSquaredDifference returnsH (valueHeadOut rows)).getD i 0 =
      (returnsH.getD i 0 - (rows.getD i []).sum) ^ 2 := by
    rw [getD_zipWith tfSquaredDifference returnsH (valueHeadOut rows) i (by omega) (by omega),
      eV, tfSquaredDifference]
  have eC : (List.zipWith (fun ov v => clippedValue ov v eps) oldValue
      (valueHeadOut rows)).getD i 0 =
      clippedValue (oldValue.getD i 0) ((rows.getD i []).sum) eps := by
    rw [getD_zipWith (fun ov v => clippedValue ov v eps) oldValue (valueHeadOut rows) i
      (by omega) (by omega), eV]
  have eB : (List.zipWith tfSquaredDifference returnsH
      (List.zipWith (fun ov v => clippedValue ov v eps) oldValue
        (valueHeadOut rows))).getD i 0 =
      (returnsH.getD i 0 -
        clippedValue (oldValue.getD i 0) ((rows.getD i []).sum) eps) ^ 2 := by
    rw [getD_zipWith tfSquaredDifference returnsH
      (List.zipWith (fun ov v => clippedValue ov v eps) oldValue (valueHeadOut rows)) i
      (by omega) (by omega), eC, tfSquaredDifference]
  rw [eA, eB]

lemma valueLoss_indexed (streamNames : List String)
    (valueStreams : String → List (List ℚ)) (returnsHolders oldValues : List (List ℚ))
    (eps : ℚ) (mask : List ℕ) (n : ℕ) (hm : mask.length = n)
    (hr : ∀ j, j < streamNames.length → (returnsHolders.getD j []).length = n)
    (ho : ∀ j, j < streamNames.length → (oldValues.getD j []).length = n)
    (hv : ∀ j, j < streamNames.length →
      (valueStreams (streamNames.getD j "")).length = n) :
    valueLoss streamNames valueStreams returnsHolders oldValues eps mask =
      (∑ j ∈ Finset.range streamNames.length,
        maskedMeanFn n (fun i => mask.getD i 0) (fun i =>
          max (((returnsHolders.getD j []).getD i 0 -
              ((valueStreams (streamNames.getD j "")).getD i []).sum) ^ 2)
            (((returnsHolders.getD j []).getD i 0 -
              clippedValue ((oldValues.getD j []).getD i 0)
                (((valueStreams (streamNames.getD j "")).getD i []).sum) eps) ^ 2)))
        / (streamNames.length : ℚ) := by
  unfold valueLoss valueLossTerms tfReduceMean
  rw [List.length_map, List.length_range, sum_map_range]
  congr 1
  refine Finset.sum_congr rfl (fun j hj => ?_)
  have hjlt : j < streamNames.length := Finset.mem_range.mp hj
  rw [streamValueLoss_indexed (returnsHolders.getD j []) (oldValues.getD j [])
    (valueStreams (streamNames.getD j "")) eps mask n (hr j hjlt) (ho j hjlt)
    (hv j hjlt) hm]

lemma polynomialDecay_zero (i e : ℚ) (m : ℕ) : polynomialDecay i e m 0 = i := by
  simp [polynomialDecay]

lemma polynomialDecay_max (i e : ℚ) (m : ℕ) (hm : 0 < m) : polynomialDecay i e m m = e := by
  have hne : ((m : ℕ) : ℚ) ≠ 0 := Nat.cast_ne_zero.mpr (by omega)
  simp [polynomialDecay, min_self, div_self hne]

lemma polynomialDecay_antitone (i e : ℚ) (m : ℕ) (hm : 0 < m) (he : e ≤ i)
    (s t : ℕ) (hst : s ≤ t) : polynomialDecay i e m t ≤ polynomialDecay i e m s := by
  unfold polynomialDecay
  have hmQ : (0 : ℚ) < (m : ℚ) := by exact_mod_cast hm
  have h1 : ((min s m : ℕ) : ℚ) ≤ ((min t m : ℕ) : ℚ) := by
    exact_mod_cast min_le_min hst (le_refl m)
  have h2 : ((min s m : ℕ) : ℚ) / (m : ℚ) ≤ ((min t m : ℕ) : ℚ) / (m : ℚ) :=
    (div_le_div_iff_of_pos_right hmQ).mpr h1
  nlinarith [sub_nonneg.mpr he]

lemma polynomialDecay_ge_end (i e : ℚ) (m : ℕ) (hm : 0 < m) (he : e ≤ i) (s : ℕ) :
    e ≤ polynomialDecay i e m s := by
  unfold polynomialDecay
  have hmQ : (0 : ℚ) < (m : ℚ) := by exact_mod_cast hm
  have h1 : ((min s m : ℕ) : ℚ) ≤ (m : ℚ) := by exact_mod_cast min_le_right s m
  have h2 : ((min s m : ℕ) : ℚ) / (m : ℚ) ≤ 1 := by
    rw [div_le_one hmQ]; exact h1
  have h3 : (0 : ℚ) ≤ ((min s m : ℕ) : ℚ) / (m : ℚ) := by positivity
  nlinarith [sub_nonneg.mpr he]

/-! ## Claims -/

/-- C1: in `PPOModel.create_losses`, the policy ratio is
`r = exp(current_log_prob - old_log_prob)` and the policy loss is the negative
masked mean (over timesteps with mask = 1) of the elementwise minimum of the
two surrogate objectives `r * advantage` and
`clip(r, 1 - decay_epsilon, 1 + decay_epsilon) * advantage`, for every batch of
log-probabilities, advantages and 0/1 mask (with `texp` the backend
exponential). -/
theorem claim_C1_policy_loss (texp : ℚ → ℚ) (probs oldProbs advantage : List ℚ)
    (eps : ℚ) (mask : List ℕ) (n : ℕ) (hp : probs.length = n)
    (ho : oldProbs.length = n) (ha : advantage.length = n) (hm : mask.length = n)
    (heps : 0 ≤ eps) (_hmask : ∀ m ∈ mask, m = 0 ∨ m = 1) :
    policyLoss texp probs oldProbs advantage eps mask =
      -maskedMeanFn n (fun i => mask.getD i 0) (fun i =>
        min (texp (probs.getD i 0 - oldProbs.getD i 0) * advantage.getD i 0)
          (specClip (texp (probs.getD i 0 - oldProbs.getD i 0)) (1 - eps) (1 + eps)
            * advantage.getD i 0)) := by
  rw [policyLoss_indexed texp probs oldProbs advantage eps mask n hp ho ha hm]
  refine congrArg (fun z => -z) (maskedMeanFn_congr n _ _ _ (fun i hi _ => ?_))
  rw [tfClip_eq_specClip _ _ _ (by linarith)]

theorem claim_C1_witness :
    ([1, 2] : List ℚ).length = 2 ∧ (0 : ℚ) ≤ 1 ∧
      policyLoss (fun x => x) [1, 2] [0, 1] [2, 3] 1 [1, 0] =
        -maskedMeanFn 2 (fun i => ([1, 0] : List ℕ).getD i 0) (fun i =>
          min ((fun x => x) (([1, 2] : List ℚ).getD i 0 - ([0, 1] : List ℚ).getD i 0)
                * ([2, 3] : List ℚ).getD i 0)
            (specClip ((fun x => x) (([1, 2] : List ℚ).getD i 0
                - ([0, 1] : List ℚ).getD i 0)) (1 - 1) (1 + 1)
              * ([2, 3] : List ℚ).getD i 0)) :=
  ⟨by decide, by decide,
    claim_C1_policy_loss (fun x => x) [1, 2] [0, 1] [2, 3] 1 [1, 0] 2
      (by decide) (by decide) (by decide) (by decide) (by decide) (by decide)⟩

/-- C2: in `PPOModel.create_losses`, for every value stream `i` the per-stream
value loss is the masked mean (over timesteps with mask = 1) of the elementwise
maximum of `(R_i - V_i)^2` and `(R_i - V_i_clipped)^2`, where
`V_i_clipped = V_i_old + clip(V_i - V_i_old, -decay_epsilon, decay_epsilon)`,
and the total value loss is the unweighted mean of the per-stream value losses
across all streams. -/
theorem claim_C2_value_loss (streamNames : List String)
    (valueStreams : String → List (List ℚ)) (returnsHolders oldValues : List (List ℚ))
    (eps : ℚ) (mask : List ℕ) (n : ℕ) (hm : mask.length = n) (heps : 0 ≤ eps)
    (hr : ∀ j, j < streamNames.length → (returnsHolders.getD j []).length = n)
    (ho : ∀ j, j < streamNames.length → (oldValues.getD j []).length = n)
    (hv : ∀ j, j < streamNames.length →
      (valueStreams (streamNames.getD j "")).length = n) :
    valueLoss streamNames valueStreams returnsHolders oldValues eps mask =
      (∑ j ∈ Finset.range streamNames.length,
        maskedMeanFn n (fun i => mask.getD i 0) (fun i =>
          max (((returnsHolders.getD j []).getD i 0 -
              ((valueStreams (streamNames.getD j "")).getD i []).sum) ^ 2)
            (((returnsHolders.getD j []).getD i 0 -
              ((oldValues.getD j []).getD i 0 +
                specClip (((valueStreams (streamNames.getD j "")).getD i []).sum -
                  (oldValues.getD j []).getD i 0) (-eps) eps)) ^ 2)))
        / (streamNames.length : ℚ) := by
  rw [valueLoss_indexed streamNames valueStreams returnsHolders oldValues eps mask n
    hm hr ho hv]
  congr 1
  refine Finset.sum_congr rfl (fun j hj => ?_)
  refine maskedMeanFn_congr n _ _ _ (fun i hi _ => ?_)
  rw [clippedValue, tfClip_eq_specClip _ _ _ (by linarith)]

theorem claim_C2_witness :
    ([1, 0] : List ℕ).length = 2 ∧ (0 : ℚ) ≤ 1 ∧
      valueLoss ["extrinsic"] (fun _ => [[1], [2]]) [[3, 4]] [[0, 1]] 1 [1, 0] =
        (∑ j ∈ Finset.range (["extrinsic"] : List String).length,
          maskedMeanFn 2 (fun i => ([1, 0] : List ℕ).getD i 0) (fun i =>
            max (((([[3, 4]] : List (List ℚ)).getD j []).getD i 0 -
                ((((fun _ => [[1], [2]]) : String → List (List ℚ))
                  ((["extrinsic"] : List String).getD j "")).getD i []).sum) ^ 2)
              (((([[3, 4]] : List (List ℚ)).getD j []).getD i 0 -
                ((([[0, 1]] : List (List ℚ)).getD j []).getD i 0 +
                  specClip (((((fun _ => [[1], [2]]) : String → List (List ℚ))
                      ((["extrinsic"] : List String).getD j "")).getD i []).sum -
                    (([[0, 1]] : List (List ℚ)).getD j []).getD i 0) (-1) 1)) ^ 2)))
          / ((["extrinsic"] : List String).length : ℚ) :=
  ⟨by decide, by decide,
    claim_C2_value_loss ["extrinsic"] (fun _ => [[1], [2]]) [[3, 4]] [[0, 1]] 1 [1, 0] 2
      (by decide) (by decide) (by decide) (by decide) (by decide)⟩

/-- C3: in `PPOModel.create_losses`, the total loss equals
`policy_loss + 0.5 * value_loss - decay_beta * (masked mean of the per-timestep
entropy estimate over timesteps with mask = 1)`, for every batch of inputs. -/
theorem claim_C3_total_loss (texp : ℚ → ℚ) (probs oldProbs advantage entropy : List ℚ)
    (valueStreams : String → List (List ℚ)) (returnsHolders oldValues : List (List ℚ))
    (streamNames : List String) (beta epsilon : ℚ) (maxStep step : ℕ)
    (mask : List ℕ) (n : ℕ) (he : entropy.length = n) (hm : mask.length = n) :
    totalLoss texp probs oldProbs valueStreams entropy beta epsilon maxStep step
        streamNames returnsHolders oldValues advantage mask =
      policyLoss texp probs oldProbs advantage (decayEpsilon epsilon maxStep step) mask
        + 0.5 * valueLoss streamNames valueStreams returnsHolders oldValues
            (decayEpsilon epsilon maxStep step) mask
        - decayBeta beta maxStep step
            * maskedMeanFn n (fun i => mask.getD i 0) (fun i => entropy.getD i 0) := by
  unfold totalLoss
  rw [maskedMean_dynPartN entropy mask n he hm]

theorem claim_C3_witness :
    ([2, 5] : List ℚ).length = 2 ∧
      totalLoss (fun x => x) [1, 2] [0, 1] (fun _ => [[1], [2]]) [2, 5] 1 1 4 1
          ["extrinsic"] [[3, 4]] [[0, 1]] [2, 3] [1, 0] =
        policyLoss (fun x => x) [1, 2] [0, 1] [2, 3] (decayEpsilon 1 4 1) [1, 0]
          + 0.5 * valueLoss ["extrinsic"] (fun _ => [[1], [2]]) [[3, 4]] [[0, 1]]
              (decayEpsilon 1 4 1) [1, 0]
          - decayBeta 1 4 1
              * maskedMeanFn 2 (fun i => ([1, 0] : List ℕ).getD i 0)
                  (fun i => ([2, 5] : List ℚ).getD i 0) :=
  ⟨by decide,
    claim_C3_total_loss (fun x => x) [1, 2] [0, 1] [2, 3] [2, 5] (fun _ => [[1], [2]])
      [[3, 4]] [[0, 1]] ["extrinsic"] 1 1 4 1 [1, 0] 2 (by decide) (by decide)⟩

/-- C6: for every current value estimate `V`, old value estimate `V_old` and
clip radius `eps ≥ 0`, the clipped value estimate
`V_clipped = V_old + clip(V - V_old, -eps, eps)` computed in
`PPOModel.create_losses` lies within the closed interval
`[V_old - eps, V_old + eps]`. -/
theorem claim_C6_clipped_value_range (v vOld eps : ℚ) (heps : 0 ≤ eps) :
    vOld - eps ≤ clippedValue vOld v eps ∧ clippedValue vOld v eps ≤ vOld + eps := by
  unfold clippedValue tfClipByValue
  constructor
  · have h := le_max_right (min (v - vOld) eps) (-eps)
    linarith
  · have h1 : min (v - vOld) eps ≤ eps := min_le_right _ _
    have h2 : max (min (v - vOld) eps) (-eps) ≤ eps := max_le h1 (by linarith)
    linarith

theorem claim_C6_witness :
    (0 : ℚ) ≤ 1 ∧ (2 : ℚ) - 1 ≤ clippedValue 2 9 1 ∧ clippedValue 2 9 1 ≤ 2 + 1 :=
  ⟨by decide,
    (claim_C6_clipped_value_range 9 2 1 (by decide)).1,
    (claim_C6_clipped_value_range 9 2 1 (by decide)).2⟩

/-- C7: under the precondition that the length of `stream_names` equals the
number of value streams, every name in `stream_names` has exactly one
corresponding value head, exactly one returns placeholder and exactly one
old-value placeholder, matched by list index: the placeholder lists have the
same length as `stream_names`, the `i`-th placeholders are named after
`stream_names[i]`, and the `i`-th per-stream loss term pairs the `i`-th
placeholders with the value head looked up under `stream_names[i]`. -/
theorem claim_C7_stream_pairing (streamNames : List String) (numStreams : ℕ)
    (valueStreams : String → List (List ℚ)) (returnsHolders oldValues : List (List ℚ))
    (eps : ℚ) (mask : List ℕ) (i : ℕ) (hlen : streamNames.length = numStreams)
    (hi : i < streamNames.length) :
    (returnsHolderNames streamNames numStreams).length = streamNames.length
    ∧ (oldValueNames streamNames numStreams).length = streamNames.length
    ∧ (valueLossTerms streamNames valueStreams returnsHolders oldValues eps mask).length
        = streamNames.length
    ∧ (returnsHolderNames streamNames numStreams).getD i ""
        = streamNames.getD i "" ++ "_returns"
    ∧ (oldValueNames streamNames numStreams).getD i ""
        = streamNames.getD i "" ++ "_value_estimate"
    ∧ (valueLossTerms streamNames valueStreams returnsHolders oldValues eps mask).getD i 0
        = streamValueLoss (returnsHolders.getD i []) (oldValues.getD i [])
            (valueStreams (streamNames.getD i "")) eps mask := by
  refine ⟨?_, ?_, ?_, ?_, ?_, ?_⟩
  · rw [returnsHolderNames, List.length_map, List.length_range, hlen]
  · rw [oldValueNames, List.length_map, List.length_range, hlen]
  · rw [valueLossTerms, List.length_map, List.length_range]
  · rw [returnsHolderNames]
    exact getD_range_map _ "" numStreams i (by omega)
  · rw [oldValueNames]
    exact getD_range_map _ "" numStreams i (by omega)
  · rw [valueLossTerms]
    exact getD_range_map _ 0 streamNames.length i hi

theorem claim_C7_witness :
    (["extrinsic", "curiosity"] : List String).length = 2 ∧ (0 : ℕ) < 2 ∧
      (returnsHolderNames ["extrinsic", "curiosity"] 2).getD 0 ""
        = (["extrinsic", "curiosity"] : List String).getD 0 "" ++ "_returns" :=
  ⟨by decide, by decide,
    (claim_C7_stream_pairing ["extrinsic", "curiosity"] 2 (fun _ => []) [] [] 0 [] 0
      (by decide) (by decide)).2.2.2.1⟩

/-- C10: when `PPOModel` is constructed with `stream_names = None` (the
default), it behaves exactly as if constructed with an empty list of stream
names: the base model is initialized with the empty sequence, and no returns or
old-value placeholders are created (the number of value heads, modelled from
the spec, is the length of `stream_names`). -/
theorem claim_C10_default_stream_names :
    resolveStreamNames none = resolveStreamNames (some [])
    ∧ resolveStreamNames none = []
    ∧ returnsHolderNames (resolveStreamNames none)
        (numValueHeads (resolveStreamNames none)) = []
    ∧ oldValueNames (resolveStreamNames none)
        (numValueHeads (resolveStreamNames none)) = [] :=
  ⟨rfl, rfl, rfl, rfl⟩

/-- C8: for every name that is not one of the fixed registry keys
{extrinsic, curiosity, gail}, `create_reward_signal` fails with the
"Unknown reward signal type" error naming the given name; the result is this
error for every possible behaviour of `check_config` and of the variant
constructors, so neither is invoked and no instance is ever produced. -/
theorem claim_C8_unknown_signal_type {Policy Config Inst CfgErr Exc : Type}
    (check_config : RewardSignalClass → Config → Except CfgErr Unit)
    (construct : RewardSignalClass → Policy → Config →
      Except (ConstructorFailure Exc) Inst)
    (policy : Policy) (name : String) (config_entry : Config)
    (h1 : name ≠ "extrinsic") (h2 : name ≠ "curiosity") (h3 : name ≠ "gail") :
    create_reward_signal check_config construct policy name config_entry =
      .error (.unityTrainerException ("Unknown reward signal type " ++ name)) := by
  have hb1 : (name == "extrinsic") = false := beq_eq_false_iff_ne.mpr h1
  have hb2 : (name == "gail") = false := beq_eq_false_iff_ne.mpr h3
  have hb3 : (name == "curiosity") = false := beq_eq_false_iff_ne.mpr h2
  have hl : NAME_TO_CLASS.lookup name = none := by
    simp [NAME_TO_CLASS, List.lookup, hb1, hb2, hb3]
  unfold create_reward_signal
  rw [hl]

theorem claim_C8_witness :
    ("gan" ≠ "extrinsic" ∧ "gan" ≠ "curiosity" ∧ "gan" ≠ "gail") ∧
      create_reward_signal
          (fun (_ : RewardSignalClass) (_ : Unit) => (Except.ok () : Except Unit Unit))
          (fun (_ : RewardSignalClass) (_ : Unit) (_ : Unit) =>
            (Except.ok () : Except (ConstructorFailure Unit) Unit))
          () "gan" () =
        .error (.unityTrainerException ("Unknown reward signal type " ++ "gan")) :=
  ⟨⟨by decide, by decide, by decide⟩,
    claim_C8_unknown_signal_type (fun _ _ => Except.ok ())
      (fun _ _ _ => Except.ok ()) () "gan" () (by decide) (by decide) (by decide)⟩

/-- C9: for every valid name in the registry, if `check_config` passes and
constructing the chosen variant from the policy and the config entry raises a
constructor type-mismatch error (`TypeError`), `create_reward_signal` fails
with the "Unknown parameters given for reward signal" error naming the signal,
and never with the raw type-mismatch exception (the raised message `msg` is
discarded). -/
theorem claim_C9_unknown_parameters {Policy Config Inst CfgErr Exc : Type}
    (check_config : RewardSignalClass → Config → Except CfgErr Unit)
    (construct : RewardSignalClass → Policy → Config →
      Except (ConstructorFailure Exc) Inst)
    (policy : Policy) (name : String) (config_entry : Config)
    (rcls : RewardSignalClass) (msg : String)
    (hname : NAME_TO_CLASS.lookup name = some rcls)
    (hcfg : check_config rcls config_entry = .ok ())
    (hcons : construct rcls policy config_entry = .error (.typeMismatch msg)) :
    create_reward_signal check_config construct policy name config_entry =
      .error (.unityTrainerException
        ("Unknown parameters given for reward signal " ++ name)) := by
  unfold create_reward_signal
  simp only [hname, hcfg, hcons]

theorem claim_C9_witness :
    NAME_TO_CLASS.lookup "extrinsic" = some RewardSignalClass.extrinsicSignal ∧
      create_reward_signal
          (fun (_ : RewardSignalClass) (_ : Unit) => (Except.ok () : Except Unit Unit))
          (fun (_ : RewardSignalClass) (_ : Unit) (_ : Unit) =>
            (Except.error (.typeMismatch "unexpected keyword argument")
              : Except (ConstructorFailure Unit) Unit))
          () "extrinsic" () =
        .error (.unityTrainerException
          ("Unknown parameters given for reward signal " ++ "extrinsic")) :=
  ⟨by decide,
    claim_C9_unknown_parameters (fun _ _ => Except.ok ())
      (fun _ _ _ => Except.error (.typeMismatch "unexpected keyword argument"))
      () "extrinsic" () RewardSignalClass.extrinsicSignal "unexpected keyword argument"
      (by decide) rfl rfl⟩

/-- C4 counterexample: the claim asserts that each schedule never goes below
its floor for every configured initial value, but `tf.train.polynomial_decay`
interpolates linearly between the configured initial value and the floor, so
an epsilon configured below its floor 0.1 (here 0.05, with `max_step = 1`)
yields a schedule value below the floor at step 0. -/
theorem claim_C4_counterexample : decayEpsilon 0.05 1 0 < 0.1 := by
  norm_num [decayEpsilon, polynomialDecay]

/-- C4 (amended): each of the three hyperparameter schedules built by
`PPOModel.create_losses` (learning rate, clip epsilon, entropy beta) is a
linear decay in the global step: at step 0 it equals the configured initial
value; at step = `max_step` it equals exactly its floor (1e-10, 0.1, 1e-5
respectively); and provided the configured initial value is at least the floor,
the schedule is non-increasing in the step and never goes below the floor. -/
theorem claim_C4_schedules (lr epsilon beta : ℚ) (maxStep s t : ℕ)
    (hmax : 0 < maxStep) (hst : s ≤ t) (hlr : 1e-10 ≤ lr) (heps : 0.1 ≤ epsilon)
    (hbeta : 1e-5 ≤ beta) :
    (learningRate lr maxStep 0 = lr ∧ decayEpsilon epsilon maxStep 0 = epsilon
      ∧ decayBeta beta maxStep 0 = beta)
    ∧ (learningRate lr maxStep maxStep = 1e-10
      ∧ decayEpsilon epsilon maxStep maxStep = 0.1
      ∧ decayBeta beta maxStep maxStep = 1e-5)
    ∧ (learningRate lr maxStep t ≤ learningRate lr maxStep s
      ∧ decayEpsilon epsilon maxStep t ≤ decayEpsilon epsilon maxStep s
      ∧ decayBeta beta maxStep t ≤ decayBeta beta maxStep s)
    ∧ (1e-10 ≤ learningRate lr maxStep s ∧ 0.1 ≤ decayEpsilon epsilon maxStep s
      ∧ 1e-5 ≤ decayBeta beta maxStep s) := by
  unfold learningRate decayEpsilon decayBeta
  exact ⟨⟨polynomialDecay_zero lr 1e-10 maxStep, polynomialDecay_zero epsilon 0.1 maxStep,
      polynomialDecay_zero beta 1e-5 maxStep⟩,
    ⟨polynomialDecay_max lr 1e-10 maxStep hmax, polynomialDecay_max epsilon 0.1 maxStep hmax,
      polynomialDecay_max beta 1e-5 maxStep hmax⟩,
    ⟨polynomialDecay_antitone lr 1e-10 maxStep hmax hlr s t hst,
      polynomialDecay_antitone epsilon 0.1 maxStep hmax heps s t hst,
      polynomialDecay_antitone beta 1e-5 maxStep hmax hbeta s t hst⟩,
    ⟨polynomialDecay_ge_end lr 1e-10 maxStep hmax hlr s,
      polynomialDecay_ge_end epsilon 0.1 maxStep hmax heps s,
      polynomialDecay_ge_end beta 1e-5 maxStep hmax hbeta s⟩⟩

theorem claim_C4_witness :
    (0 < 2 ∧ (0 : ℕ) ≤ 1 ∧ (1e-10 : ℚ) ≤ 1 ∧ (0.1 : ℚ) ≤ 0.2
      ∧ (1e-5 : ℚ) ≤ 0.001)
    ∧ decayEpsilon 0.2 2 0 = 0.2 :=
  ⟨⟨by decide, by decide, by norm_num, by norm_num, by norm_num⟩,
    (claim_C4_schedules 1 0.2 0.001 2 0 1 (by decide) (by decide) (by norm_num)
      (by norm_num) (by norm_num)).1.2.1⟩

/-- C5: for every two batches of inputs to the loss graph built by
`PPOModel.create_losses` that agree on the mask and on all values at timesteps
with mask = 1, but differ arbitrarily (in returns, value estimates,
log-probabilities, advantages or entropy) at timesteps with mask = 0, the value
loss, the policy loss and the entropy term — and hence the total loss — are
equal for the two batches. -/
theorem claim_C5_mask_invariance (texp : ℚ → ℚ) (streamNames : List String)
    (valueStreams1 valueStreams2 : String → List (List ℚ))
    (returns1 returns2 oldVals1 oldVals2 : List (List ℚ))
    (probs1 probs2 oldProbs1 oldProbs2 adv1 adv2 entropy1 entropy2 : List ℚ)
    (beta epsilon eps : ℚ) (maxStep step n : ℕ) (mask : List ℕ)
    (hm : mask.length = n)
    (hp1 : probs1.length = n) (hp2 : probs2.length = n)
    (hq1 : oldProbs1.length = n) (hq2 : oldProbs2.length = n)
    (ha1 : adv1.length = n) (ha2 : adv2.length = n)
    (he1 : entropy1.length = n) (he2 : entropy2.length = n)
    (hr1 : ∀ j, j < streamNames.length → (returns1.getD j []).length = n)
    (hr2 : ∀ j, j < streamNames.length → (returns2.getD j []).length = n)
    (ho1 : ∀ j, j < streamNames.length → (oldVals1.getD j []).length = n)
    (ho2 : ∀ j, j < streamNames.length → (oldVals2.getD j []).length = n)
    (hv1 : ∀ j, j < streamNames.length →
      (valueStreams1 (streamNames.getD j "")).length = n)
    (hv2 : ∀ j, j < streamNames.length →
      (valueStreams2 (streamNames.getD j "")).length = n)
    (hagree : ∀ i, i < n → mask.getD i 0 = 1 →
      probs1.getD i 0 = probs2.getD i 0
      ∧ oldProbs1.getD i 0 = oldProbs2.getD i 0
      ∧ adv1.getD i 0 = adv2.getD i 0
      ∧ entropy1.getD i 0 = entropy2.getD i 0
      ∧ ∀ j, j < streamNames.length →
          (returns1.getD j []).getD i 0 = (returns2.getD j []).getD i 0
          ∧ (oldVals1.getD j []).getD i 0 = (oldVals2.getD j []).getD i 0
          ∧ ((valueStreams1 (streamNames.getD j "")).getD i []).sum
              = ((valueStreams2 (streamNames.getD j "")).getD i []).sum) :
    valueLoss streamNames valueStreams1 returns1 oldVals1 eps mask
        = valueLoss streamNames valueStreams2 returns2 oldVals2 eps mask
    ∧ policyLoss texp probs1 oldProbs1 adv1 eps mask
        = policyLoss texp probs2 oldProbs2 adv2 eps mask
    ∧ tfReduceMean (tfDynamicPartitionOne entropy1 mask)
        = tfReduceMean (tfDynamicPartitionOne entropy2 mask)
    ∧ totalLoss texp probs1 oldProbs1 valueStreams1 entropy1 beta epsilon maxStep step
          streamNames returns1 oldVals1 adv1 mask
        = totalLoss texp probs2 oldProbs2 valueStreams2 entropy2 beta epsilon maxStep step
          streamNames returns2 oldVals2 adv2 mask := by
  have hval : ∀ e : ℚ, valueLoss streamNames valueStreams1 returns1 oldVals1 e mask
      = valueLoss streamNames valueStreams2 returns2 oldVals2 e mask := by
    intro e
    rw [valueLoss_indexed streamNames valueStreams1 returns1 oldVals1 e mask n hm hr1 ho1 hv1,
      valueLoss_indexed streamNames valueStreams2 returns2 oldVals2 e mask n hm hr2 ho2 hv2]
    congr 1
    refine Finset.sum_congr rfl (fun j hj => ?_)
    refine maskedMeanFn_congr n _ _ _ (fun i hi hmi => ?_)
    obtain ⟨-, -, -, -, hstr⟩ := hagree i hi hmi
    obtain ⟨hR, hO, hV⟩ := hstr j (Finset.mem_range.mp hj)
    rw [hR, hO, hV]
  have hpol : ∀ e : ℚ, policyLoss texp probs1 oldProbs1 adv1 e mask
      = policyLoss texp probs2 oldProbs2 adv2 e mask := by
    intro e
    rw [policyLoss_indexed texp probs1 oldProbs1 adv1 e mask n hp1 hq1 ha1 hm,
      policyLoss_indexed texp probs2 oldProbs2 adv2 e mask n hp2 hq2 ha2 hm]
    refine congrArg (fun z => -z)
      (maskedMeanFn_congr n _ _ _ (fun i hi hmi => ?_))
    obtain ⟨h1, h2, h3, -, -⟩ := hagree i hi hmi
    rw [h1, h2, h3]
  have hent : tfReduceMean (tfDynamicPartitionOne entropy1 mask)
      = tfReduceMean (tfDynamicPartitionOne entropy2 mask) := by
    rw [maskedMean_dynPartN entropy1 mask n he1 hm,
      maskedMean_dynPartN entropy2 mask n he2 hm]
    refine maskedMeanFn_congr n _ _ _ (fun i hi hmi => ?_)
    exact (hagree i hi hmi).2.2.2.1
  refine ⟨hval eps, hpol eps, hent, ?_⟩
  unfold totalLoss
  rw [hval (decayEpsilon epsilon maxStep step), hpol (decayEpsilon epsilon maxStep step),
    hent]

theorem claim_C5_witness :
    ([1, 0] : List ℕ).length = 2
    ∧ ([1, 0] : List ℕ).getD 1 0 = 0
    ∧ policyLoss (fun x => x) [1, 2] [0, 1] [2, 3] 0.2 [1, 0]
        = policyLoss (fun x => x) [1, 5] [0, 3] [2, 4] 0.2 [1, 0] :=
  ⟨by decide, by decide,
    (claim_C5_mask_invariance (fun x => x) ["extrinsic"]
      (fun _ => [[1], [2]]) (fun _ => [[1], [7]])
      [[3, 4]] [[3, 9]] [[0, 1]] [[0, 8]]
      [1, 2] [1, 5] [0, 1] [0, 3] [2, 3] [2, 4] [1, 1] [1, 9]
      1 0.2 0.2 10 0 2 [1, 0]
      (by decide) (by decide) (by decide) (by decide) (by decide) (by decide)
      (by decide) (by decide) (by decide) (by decide) (by decide) (by decide)
      (by decide) (by decide) (by decide)
      (by
        intro i hi hmi
        interval_cases i
        · refine ⟨rfl, rfl, rfl, rfl, fun j hj => ?_⟩
          have hj1 : j < 1 := by simpa using hj
          interval_cases j
          exact ⟨rfl, rfl, rfl⟩
        · exact absurd hmi (by decide))).2.1⟩
